import Mathlib

/-!
Shallow embedding of `src/matrixdraw.h` (NightDriver-Pi): the frame renderer
`MatrixDraw::DrawFrame` and the scheduling loop `MatrixDraw::RunDrawLoop`.

Modelling choices:
* Machine doubles (timestamps, ages, FPS) are modelled as exact rationals;
  `DBL_EPSILON` is the rational `2 ^ (-52)`.
* The matrix surface (`rgb_matrix::RGBMatrix` pixel store) is a total function
  from coordinates to colors; `SetPixel` is a pointwise functional update.
* The buffer manager, the wall clock and the `interrupt_received` flag are
  external and possibly concurrent, so `RunDrawLoop` is embedded as a labelled
  small-step transition relation: each query to the environment is an event
  carrying the value the environment answered.
-/

namespace MatrixDraw

/-- Modelled from the spec: `CRGB` (declared in the repository outside
`src/`) is a per-pixel color triple of 8-bit red, green, blue channels;
channel values are modelled as naturals. -/
structure CRGB where
  r : ℕ
  g : ℕ
  b : ℕ
deriving DecidableEq, Repr

def defaultColor : CRGB := ⟨0, 0, 0⟩

/-- The pixel store of the matrix: color at each (x, y) coordinate. -/
def Surface : Type := ℕ → ℕ → CRGB

/-- `matrix.SetPixel(x, y, r, g, b)` as a functional update. -/
def setPixel (s : Surface) (x y : ℕ) (c : CRGB) : Surface :=
  fun a b => if a = x ∧ b = y then c else s a b

/-- The inner `for (y = 0; y < height; y++)` loop of `DrawFrame` at a fixed
column `x`: reads `ColorData()[y * width + x]` and writes it to
`(width - 1 - x, y)`. -/
def drawColumn (cd : List CRGB) (W H x : ℕ) (s : Surface) : Surface :=
  (List.range H).foldl
    (fun s y => setPixel s (W - 1 - x) y (cd.getD (y * W + x) defaultColor)) s

/-- The nested pixel-transfer loops of `DrawFrame` (lines 68-75):
`for x in [0, width)`, `for y in [0, height)`. -/
def drawPixels (cd : List CRGB) (W H : ℕ) (s : Surface) : Surface :=
  (List.range W).foldl (fun s x => drawColumn cd W H x s) s

/-- The linear source indices `y * width + x` read by the transfer loops,
in loop order (line 72). -/
def readIndices (W H : ℕ) : List ℕ :=
  (List.range W).flatMap fun x => (List.range H).map fun y => y * W + x

/-- The destination coordinates `(width - 1 - x, y)` written by the transfer
loops, in loop order (line 73). -/
def destCoords (W H : ℕ) : List (ℕ × ℕ) :=
  (List.range W).flatMap fun x => (List.range H).map fun y => (W - 1 - x, y)

/-- The process-wide timing state of `DrawFrame`: the static local
`lastTime` and the static member `_FPS`. -/
structure Timing where
  lastTime : ℚ
  fps : ℚ
deriving DecidableEq, Repr

/-- `DBL_EPSILON` as an exact rational. -/
def dblEpsilon : ℚ := 1 / 2 ^ 52

/-- Lines 55-59 of `DrawFrame`: `delta = currentTime - lastTime + DBL_EPSILON;
lastTime = currentTime; _FPS = 1.0 / delta`. -/
def tick (t : Timing) (now : ℚ) : Timing :=
  ⟨now, 1 / (now - t.lastTime + dblEpsilon)⟩

/-- The mutable state `DrawFrame` touches: the matrix surface and the
process-wide timing state. -/
structure DrawState where
  surface : Surface
  timing : Timing

/-- `MatrixDraw::DrawFrame(buffer, matrix)`: updates the timing state, then
checks `ColorData().size() != width * height` and throws on mismatch,
otherwise runs the pixel-transfer loops. `now` is the value returned by
`CAppTime::CurrentTime()` (modelled from the spec: a monotonic clock source,
declared in the repository outside `src/`). -/
def DrawFrame (cd : List CRGB) (W H : ℕ) (now : ℚ) (st : DrawState) :
    DrawState × Except String Unit :=
  let t := tick st.timing now
  if cd.length ≠ W * H then
    (⟨st.surface, t⟩, .error "Size mismatch between data and matrix.")
  else
    (⟨drawPixels cd W H st.surface, t⟩, .ok ())

/-- `MatrixDraw::FPS()`: returns the static member `_FPS`. -/
def FPS (t : Timing) : ℚ := t.fps

/-- Modelled from the spec: an `LEDBuffer` (declared in the repository
outside `src/`) carries one frame of per-pixel color data. -/
structure LEDBuffer where
  colorData : List CRGB
deriving DecidableEq

/-- Line 91: `constexpr auto burnExtraFrames = false`. -/
def burnExtraFrames : Bool := false

/-- Line 92: `constexpr auto kMaximumWait = 10000.0` (microseconds). -/
def kMaximumWait : ℚ := 10000

/-- C++ conversion of a floating-point value to `int64_t`: truncation
toward zero. -/
def ratTrunc (q : ℚ) : ℤ := if 0 ≤ q then ⌊q⌋ else ⌈q⌉

/-- Line 112: `int64_t delay = std::min(kMaximumWait,
bufferManager.AgeOfOldestBuffer() * 1000000L)`, for an age of `a` seconds. -/
def computeDelay (a : ℚ) : ℤ := ratTrunc (min kMaximumWait (a * 1000000))

/-- The compile-time parameters of a `RunDrawLoop` instance: the matrix
dimensions and the `burnExtraFrames` policy flag. -/
structure Params where
  width : ℕ
  height : ℕ
  burn : Bool

/-- Program points of `RunDrawLoop`. -/
inductive PC where
  /-- Top of the outer `while (!interrupt_received)` loop (line 94). -/
  | outer
  /-- The inner `while (bufferManager.AgeOfOldestBuffer() <= 0)` condition
  (line 101). -/
  | inner
  /-- About to call `bufferManager.PopOldestBuffer()` (line 103). -/
  | doPop
  /-- A buffer was popped; the `burnExtraFrames && AgeOfOldestBuffer() <= 0`
  gate (line 107). -/
  | burnGate (buf : LEDBuffer)
  /-- About to call `DrawFrame(buffer.value(), matrix)` (line 110). -/
  | render (buf : LEDBuffer)
  /-- The delay computation after the inner loop exits (line 112). -/
  | delayCalc
  /-- The `if (delay > 0) sleep_for(...)` statement (lines 113-114). -/
  | sleeping (d : ℤ)
  /-- `return true` reached (line 116). -/
  | done (r : Bool)
  /-- The `std::runtime_error` from `DrawFrame` propagating out of the
  loop. -/
  | failed (msg : String)
deriving DecidableEq

/-- A configuration of the draw loop: program point plus mutable state. -/
structure Cfg where
  pc : PC
  surface : Surface
  timing : Timing

/-- Observable events: each query to the (possibly concurrent) environment,
labelled with the answer it returned, plus the sleep action. -/
inductive Ev where
  /-- Reading the volatile `interrupt_received` flag. -/
  | qintr (b : Bool)
  /-- A call to `bufferManager.AgeOfOldestBuffer()` answering `a` seconds. -/
  | qage (a : ℚ)
  /-- A call to `bufferManager.PopOldestBuffer()` answering `r`. -/
  | qpop (r : Option LEDBuffer)
  /-- A call to `CAppTime::CurrentTime()` inside `DrawFrame`. -/
  | clock (now : ℚ)
  /-- `std::this_thread::sleep_for(std::chrono::microseconds(d))`. -/
  | slept (d : ℤ)
  /-- An internal step with no environment interaction. -/
  | tau
deriving DecidableEq

/-- The configuration after the `DrawFrame` call on line 110: on success
control returns to the inner loop condition; on a size mismatch the
exception leaves the loop. -/
def renderResult (P : Params) (f : LEDBuffer) (s : Surface) (t : Timing)
    (now : ℚ) : Cfg :=
  match DrawFrame f.colorData P.width P.height now ⟨s, t⟩ with
  | (st, .ok _) => ⟨.inner, st.surface, st.timing⟩
  | (st, .error e) => ⟨.failed e, st.surface, st.timing⟩

/-- Small-step semantics of `RunDrawLoop` (lines 94-116), one constructor
per control transfer of the source. -/
inductive Step (P : Params) : Cfg → Ev → Cfg → Prop where
  /-- `interrupt_received` read as true: leave the outer loop, `return
  true`. -/
  | outerStop (s t) :
      Step P ⟨.outer, s, t⟩ (.qintr true) ⟨.done true, s, t⟩
  /-- `interrupt_received` read as false: enter the loop body. -/
  | outerCont (s t) :
      Step P ⟨.outer, s, t⟩ (.qintr false) ⟨.inner, s, t⟩
  /-- Inner condition with `AgeOfOldestBuffer() <= 0`: enter the inner
  body. -/
  | innerDue (a s t) (h : a ≤ 0) :
      Step P ⟨.inner, s, t⟩ (.qage a) ⟨.doPop, s, t⟩
  /-- Inner condition with a positive age: fall through to the delay
  computation. -/
  | innerNotDue (a s t) (h : 0 < a) :
      Step P ⟨.inner, s, t⟩ (.qage a) ⟨.delayCalc, s, t⟩
  /-- `PopOldestBuffer()` returned `nullopt`: `continue` back to the inner
  condition (lines 104-105). -/
  | popNone (s t) :
      Step P ⟨.doPop, s, t⟩ (.qpop none) ⟨.inner, s, t⟩
  /-- `PopOldestBuffer()` returned a buffer. -/
  | popSome (f s t) :
      Step P ⟨.doPop, s, t⟩ (.qpop (some f)) ⟨.burnGate f, s, t⟩
  /-- `burnExtraFrames` is false: `&&` short-circuits, no age query, fall
  through to the `DrawFrame` call. -/
  | burnOff (f s t) (h : P.burn = false) :
      Step P ⟨.burnGate f, s, t⟩ .tau ⟨.render f, s, t⟩
  /-- Policy enabled and the new oldest buffer is also due: `continue`,
  dropping the popped buffer (line 108). -/
  | burnDrop (f a s t) (hb : P.burn = true) (h : a ≤ 0) :
      Step P ⟨.burnGate f, s, t⟩ (.qage a) ⟨.inner, s, t⟩
  /-- Policy enabled but the new oldest buffer is not due: render. -/
  | burnKeep (f a s t) (hb : P.burn = true) (h : 0 < a) :
      Step P ⟨.burnGate f, s, t⟩ (.qage a) ⟨.render f, s, t⟩
  /-- The `DrawFrame(buffer.value(), matrix)` call. -/
  | renderStep (f s t now) :
      Step P ⟨.render f, s, t⟩ (.clock now) (renderResult P f s t now)
  /-- Line 112: compute the delay from a fresh `AgeOfOldestBuffer()`
  query. -/
  | delayStep (a s t) :
      Step P ⟨.delayCalc, s, t⟩ (.qage a) ⟨.sleeping (computeDelay a), s, t⟩
  /-- `delay > 0`: sleep for exactly `delay` microseconds, then re-test the
  outer condition. -/
  | sleepPos (d s t) (h : 0 < d) :
      Step P ⟨.sleeping d, s, t⟩ (.slept d) ⟨.outer, s, t⟩
  /-- `delay <= 0`: no sleep, re-test the outer condition. -/
  | sleepSkip (d s t) (h : d ≤ 0) :
      Step P ⟨.sleeping d, s, t⟩ .tau ⟨.outer, s, t⟩

/-- The sleep duration as §4.1 of the spec words it: `min(maximumWait,
age × 1,000,000)` clamped to be non-negative, as an exact rational number of
microseconds. Stated for comparison with the code's `computeDelay`. -/
def claimedSleep (a : ℚ) : ℚ := max 0 (min kMaximumWait (a * 1000000))

/-- A concrete surface for witnesses: all pixels black. -/
def s0 : Surface := fun _ _ => defaultColor

/-- A concrete initial timing state: the zero sentinel of the static
`lastTime`, and `_FPS` zero-initialized. -/
def t0 : Timing := ⟨0, 0⟩

def st0 : DrawState := ⟨s0, t0⟩

/-- Concrete loop parameters: a 2×1 matrix, `burnExtraFrames` as in the
source. -/
def P0 : Params := ⟨2, 1, burnExtraFrames⟩

/-- A concrete 2×2 frame for witnesses. -/
def cd4 : List CRGB := [⟨1, 0, 0⟩, ⟨2, 0, 0⟩, ⟨3, 0, 0⟩, ⟨4, 0, 0⟩]

/-- A concrete well-sized buffer for the 2×1 matrix of `P0`. -/
def f0 : LEDBuffer := ⟨[⟨1, 2, 3⟩, ⟨4, 5, 6⟩]⟩

/-- A concrete buffer whose pixel count (1) differs from the 2×1 matrix of
`P0`. -/
def fbad : LEDBuffer := ⟨[defaultColor]⟩

theorem drawColumn_apply (cd : List CRGB) (W x : ℕ) (s : Surface) :
    ∀ H a b, drawColumn cd W H x s a b =
      if a = W - 1 - x ∧ b < H then cd.getD (b * W + x) defaultColor
      else s a b := by
  intro H
  induction H with
  | zero => intro a b; simp [drawColumn]
  | succ n ih =>
    intro a b
    have hstep : drawColumn cd W (n + 1) x s =
        setPixel (drawColumn cd W n x s) (W - 1 - x) n
          (cd.getD (n * W + x) defaultColor) := by
      unfold drawColumn
      rw [List.range_succ, List.foldl_append]
      rfl
    rw [hstep]
    unfold setPixel
    rw [ih a b]
    by_cases h1 : a = W - 1 - x
    · subst h1
      by_cases h2 : b = n
      · subst h2; simp
      · by_cases h3 : b < n
        · have h4 : b < n + 1 := by omega
          simp [h2, h3, h4]
        · have h4 : ¬ b < n + 1 := by omega
          simp [h2, h3, h4]
    · simp [h1]

theorem drawPixels_upTo (cd : List CRGB) (W H : ℕ) (s : Surface) :
    ∀ n, n ≤ W → ∀ a b,
      ((List.range n).foldl (fun s x => drawColumn cd W H x s) s) a b =
        if W - n ≤ a ∧ a < W ∧ b < H
        then cd.getD (b * W + (W - 1 - a)) defaultColor
        else s a b := by
  intro n
  induction n with
  | zero =>
    intro _ a b
    have hc : ¬ (W - 0 ≤ a ∧ a < W ∧ b < H) := by omega
    rw [if_neg hc]
    simp
  | succ n ih =>
    intro hn a b
    have hstep : (List.range (n + 1)).foldl (fun s x => drawColumn cd W H x s) s =
        drawColumn cd W H n
          ((List.range n).foldl (fun s x => drawColumn cd W H x s) s) := by
      rw [List.range_succ, List.foldl_append]
      rfl
    rw [hstep, drawColumn_apply, ih (by omega) a b]
    by_cases h1 : a = W - 1 - n
    · subst h1
      by_cases hb : b < H
      · have hcond : W - (n + 1) ≤ W - 1 - n ∧ W - 1 - n < W ∧ b < H := by omega
        rw [if_pos ⟨rfl, hb⟩, if_pos hcond]
        have hidx : b * W + (W - 1 - (W - 1 - n)) = b * W + n := by omega
        rw [hidx]
      · simp [hb]
    · have hout : ¬ (a = W - 1 - n ∧ b < H) := by omega
      have hiff : (W - n ≤ a ∧ a < W ∧ b < H) ↔
          (W - (n + 1) ≤ a ∧ a < W ∧ b < H) := by omega
      rw [if_neg hout, if_congr hiff rfl rfl]

theorem drawPixels_apply (cd : List CRGB) (W H : ℕ) (s : Surface) (a b : ℕ) :
    drawPixels cd W H s a b =
      if a < W ∧ b < H then cd.getD (b * W + (W - 1 - a)) defaultColor
      else s a b := by
  have h := drawPixels_upTo cd W H s W le_rfl a b
  have hiff : (W - W ≤ a ∧ a < W ∧ b < H) ↔ (a < W ∧ b < H) := by omega
  unfold drawPixels
  rw [h, if_congr hiff rfl rfl]

theorem DrawFrame_timing (cd : List CRGB) (W H : ℕ) (now : ℚ) (st : DrawState) :
    (DrawFrame cd W H now st).1.timing = tick st.timing now := by
  unfold DrawFrame
  split_ifs <;> rfl

theorem count_column (c : ℕ) :
    ∀ n a b, ((List.range n).map fun y => ((c, y) : ℕ × ℕ)).count (a, b) =
      if a = c ∧ b < n then 1 else 0 := by
  intro n
  induction n with
  | zero => intro a b; simp
  | succ m ih =>
    intro a b
    rw [List.range_succ, List.map_append, List.count_append, ih a b]
    simp only [List.map_cons, List.map_nil, List.count_cons, List.count_nil,
      beq_iff_eq, Prod.mk.injEq]
    split_ifs <;> omega

theorem count_destCoords_upTo (W H : ℕ) :
    ∀ n, n ≤ W → ∀ a b,
      ((List.range n).flatMap fun x =>
          (List.range H).map fun y => ((W - 1 - x, y) : ℕ × ℕ)).count (a, b) =
        if W - n ≤ a ∧ a < W ∧ b < H then 1 else 0 := by
  intro n
  induction n with
  | zero =>
    intro _ a b
    have hc : ¬ (W - 0 ≤ a ∧ a < W ∧ b < H) := by omega
    rw [if_neg hc]
    simp
  | succ m ih =>
    intro hn a b
    rw [List.range_succ, List.flatMap_append, List.count_append, ih (by omega) a b]
    simp only [List.flatMap_cons, List.flatMap_nil, List.append_nil]
    rw [count_column (W - 1 - m) H a b]
    split_ifs <;> omega

theorem count_destCoords (W H a b : ℕ) (ha : a < W) (hb : b < H) :
    (destCoords W H).count (a, b) = 1 := by
  unfold destCoords
  rw [count_destCoords_upTo W H W le_rfl a b]
  exact if_pos ⟨by omega, ha, hb⟩

theorem readIndices_lt (W H : ℕ) : ∀ i ∈ readIndices W H, i < W * H := by
  intro i hi
  unfold readIndices at hi
  simp only [List.mem_flatMap, List.mem_range, List.mem_map] at hi
  obtain ⟨x, hx, y, hy, rfl⟩ := hi
  calc y * W + x < y * W + W := by omega
    _ = (y + 1) * W := by ring
    _ ≤ H * W := Nat.mul_le_mul_right W hy
    _ = W * H := Nat.mul_comm H W

theorem destCoords_bounds (W H : ℕ) : ∀ p ∈ destCoords W H, p.1 < W ∧ p.2 < H := by
  intro p hp
  unfold destCoords at hp
  simp only [List.mem_flatMap, List.mem_range, List.mem_map] at hp
  obtain ⟨x, hx, y, hy, rfl⟩ := hp
  exact ⟨by omega, hy⟩

theorem ceil_nonpos_of_nonpos (q : ℚ) (h : q ≤ 0) : ⌈q⌉ ≤ 0 :=
  Int.ceil_le.mpr (by simpa using h)

theorem ratTrunc_clamp (q : ℚ) : max 0 (ratTrunc q) = ratTrunc (max 0 q) := by
  rcases le_or_lt 0 q with h | h
  · rw [max_eq_right h, ratTrunc, if_pos h,
      max_eq_right (Int.floor_nonneg.mpr h)]
  · rw [max_eq_left h.le, ratTrunc, if_neg (not_le.mpr h)]
    have h0 : ratTrunc 0 = 0 := by simp [ratTrunc]
    rw [h0]
    exact max_eq_left (ceil_nonpos_of_nonpos q h.le)

theorem ratTrunc_le_of_le (q : ℚ) (m : ℤ) (h : q ≤ (m : ℚ)) (hm : 0 ≤ m) :
    ratTrunc q ≤ m := by
  rcases le_or_lt 0 q with h0 | h0
  · rw [ratTrunc, if_pos h0]
    calc ⌊q⌋ ≤ ⌊(m : ℚ)⌋ := Int.floor_le_floor h
      _ = m := Int.floor_intCast m
  · rw [ratTrunc, if_neg (not_le.mpr h0)]
    exact le_trans (ceil_nonpos_of_nonpos q h0.le) hm

theorem computeDelay_le (a : ℚ) : computeDelay a ≤ 10000 := by
  unfold computeDelay
  refine ratTrunc_le_of_le _ 10000 ?_ (by norm_num)
  calc min kMaximumWait (a * 1000000) ≤ kMaximumWait := min_le_left _ _
    _ = (10000 : ℚ) := by norm_num [kMaximumWait]

theorem renderResult_pc (P : Params) (f : LEDBuffer) (s : Surface) (t : Timing)
    (now : ℚ) :
    (renderResult P f s t now).pc = PC.inner ∨
      (renderResult P f s t now).pc =
        PC.failed "Size mismatch between data and matrix." := by
  unfold renderResult DrawFrame
  split_ifs <;> simp

/-- C1: for a frame whose pixel count equals `width * height`, `DrawFrame`
writes the source pixel at linear index `y * W + x` to destination
coordinates `(W - 1 - x, y)`, for every `x < W` and `y < H` — a fixed
horizontal mirroring of the image onto the surface. -/
theorem DrawFrame_mirrors (cd : List CRGB) (W H : ℕ) (now : ℚ) (st : DrawState)
    (x y : ℕ) (hlen : cd.length = W * H) (hx : x < W) (hy : y < H) :
    (DrawFrame cd W H now st).1.surface (W - 1 - x) y =
      cd.getD (y * W + x) defaultColor := by
  unfold DrawFrame
  rw [if_neg (by omega)]
  show drawPixels cd W H st.surface (W - 1 - x) y = _
  rw [drawPixels_apply, if_pos ⟨by omega, hy⟩]
  have hidx : y * W + (W - 1 - (W - 1 - x)) = y * W + x := by omega
  rw [hidx]

/-- Witness for C1 on a concrete 2×2 frame. -/
theorem DrawFrame_mirrors_witness :
    cd4.length = 2 * 2 ∧
      (DrawFrame cd4 2 2 5 st0).1.surface (2 - 1 - 0) 1 =
        cd4.getD (1 * 2 + 0) defaultColor :=
  ⟨by decide, DrawFrame_mirrors cd4 2 2 5 st0 0 1 (by decide) (by decide) (by decide)⟩

/-- C2: for a frame whose pixel count differs from `width * height`,
`DrawFrame` fails with the size-mismatch error and no pixel of the surface
is written. -/
theorem DrawFrame_size_mismatch (cd : List CRGB) (W H : ℕ) (now : ℚ)
    (st : DrawState) (h : cd.length ≠ W * H) :
    (DrawFrame cd W H now st).2 =
        .error "Size mismatch between data and matrix." ∧
      (DrawFrame cd W H now st).1.surface = st.surface := by
  unfold DrawFrame
  rw [if_pos h]
  exact ⟨rfl, rfl⟩

/-- Witness for C2 on a concrete 1-pixel frame against a 3×1 matrix. -/
theorem DrawFrame_size_mismatch_witness :
    [defaultColor].length ≠ 3 * 1 ∧
      ((DrawFrame [defaultColor] 3 1 7 st0).2 =
          .error "Size mismatch between data and matrix." ∧
        (DrawFrame [defaultColor] 3 1 7 st0).1.surface = st0.surface) :=
  ⟨by decide, DrawFrame_size_mismatch [defaultColor] 3 1 7 st0 (by decide)⟩

/-- C3 counterexample: a size-mismatched call to `DrawFrame` fails, yet it
changes the timing state (the FPS metric and `lastTime` are written before
the size check), so the call is not left-unchanged as claimed. -/
theorem DrawFrame_failed_call_changes_timing :
    ((DrawFrame [defaultColor] 2 1 5 st0).2 =
        Except.error "Size mismatch between data and matrix.") ∧
      (DrawFrame [defaultColor] 2 1 5 st0).1.timing ≠ st0.timing := by
  refine ⟨rfl, fun hEq => ?_⟩
  have h5 : (DrawFrame [defaultColor] 2 1 5 st0).1.timing.lastTime = 5 := by
    rw [DrawFrame_timing]
    rfl
  rw [hEq] at h5
  have : (st0.timing.lastTime : ℚ) = 0 := rfl
  rw [this] at h5
  norm_num at h5

/-- C3 amended: every call to `DrawFrame` updates the FPS metric and the
last-render timestamp (they are written before the size check, so a failing
call updates them too); the pixel writes themselves are all-or-nothing — a
size-mismatch call writes no pixel, a successful call writes every
destination pixel. -/
theorem DrawFrame_pixels_all_or_nothing (cd : List CRGB) (W H : ℕ) (now : ℚ)
    (st : DrawState) :
    (DrawFrame cd W H now st).1.timing = tick st.timing now ∧
      (cd.length ≠ W * H →
        (DrawFrame cd W H now st).1.surface = st.surface ∧
          (DrawFrame cd W H now st).2 =
            .error "Size mismatch between data and matrix.") ∧
      (cd.length = W * H →
        (DrawFrame cd W H now st).2 = .ok () ∧
          ∀ x y, x < W → y < H →
            (DrawFrame cd W H now st).1.surface (W - 1 - x) y =
              cd.getD (y * W + x) defaultColor) := by
  refine ⟨DrawFrame_timing cd W H now st, fun h => ?_, fun h => ?_⟩
  · unfold DrawFrame
    rw [if_pos h]
    exact ⟨rfl, rfl⟩
  · constructor
    · unfold DrawFrame
      rw [if_neg (by omega)]
    · intro x y hx hy
      unfold DrawFrame
      rw [if_neg (by omega)]
      show drawPixels cd W H st.surface (W - 1 - x) y = _
      rw [drawPixels_apply, if_pos ⟨by omega, hy⟩]
      have hidx : y * W + (W - 1 - (W - 1 - x)) = y * W + x := by omega
      rw [hidx]

/-- Witness for the amended C3 at a concrete mismatched call. -/
theorem DrawFrame_pixels_all_or_nothing_witness :
    [defaultColor].length ≠ 2 * 1 ∧
      (DrawFrame [defaultColor] 2 1 5 st0).1.surface = st0.surface :=
  ⟨by decide,
    ((DrawFrame_pixels_all_or_nothing [defaultColor] 2 1 5 st0).2.1 (by decide)).1⟩

/-- C4: every call to `DrawFrame` sets the FPS metric to
`1 / (now - lastTime + epsilon)` with a positive epsilon and then sets the
timestamp to `now`; with a monotonic clock the divisor is positive (so never
zero, including on the first render from the zero sentinel and when two
renders share a timestamp), and `FPS()` returns exactly the value just
computed. -/
theorem DrawFrame_fps (cd : List CRGB) (W H : ℕ) (now : ℚ) (st : DrawState)
    (hmono : st.timing.lastTime ≤ now) :
    0 < dblEpsilon ∧
      0 < now - st.timing.lastTime + dblEpsilon ∧
      (DrawFrame cd W H now st).1.timing.fps =
        1 / (now - st.timing.lastTime + dblEpsilon) ∧
      (DrawFrame cd W H now st).1.timing.lastTime = now ∧
      FPS (DrawFrame cd W H now st).1.timing =
        1 / (now - st.timing.lastTime + dblEpsilon) := by
  have heps : (0 : ℚ) < dblEpsilon := by norm_num [dblEpsilon]
  have hpos : 0 < now - st.timing.lastTime + dblEpsilon := by linarith
  refine ⟨heps, hpos, ?_, ?_, ?_⟩ <;> rw [DrawFrame_timing] <;> rfl

/-- Witness for C4 at a first render with `now` equal to the zero sentinel
(the identical-timestamps case). -/
theorem DrawFrame_fps_witness :
    st0.timing.lastTime ≤ 0 ∧ 0 < (0 : ℚ) - st0.timing.lastTime + dblEpsilon :=
  ⟨by norm_num [st0, t0], (DrawFrame_fps [] 0 0 0 st0 (by norm_num [st0, t0])).2.1⟩

/-- C9: under the size precondition, every linear index the transfer loops
read is in bounds of the frame's color data, every destination coordinate
they write satisfies `x < W` and `y < H`, and each in-range destination
pixel is written exactly once. -/
theorem DrawFrame_reads_writes_inbounds (cd : List CRGB) (W H : ℕ)
    (hlen : cd.length = W * H) :
    (∀ i ∈ readIndices W H, i < cd.length) ∧
      (∀ p ∈ destCoords W H, p.1 < W ∧ p.2 < H) ∧
      (∀ a b, a < W → b < H → (destCoords W H).count (a, b) = 1) := by
  refine ⟨fun i hi => ?_, destCoords_bounds W H,
    fun a b ha hb => count_destCoords W H a b ha hb⟩
  rw [hlen]
  exact readIndices_lt W H i hi

/-- Witness for C9 on a 3×2 frame. -/
theorem DrawFrame_reads_writes_inbounds_witness :
    (List.replicate 6 defaultColor).length = 3 * 2 ∧
      5 ∈ readIndices 3 2 ∧ 5 < (List.replicate 6 defaultColor).length :=
  ⟨by decide, by decide,
    (DrawFrame_reads_writes_inbounds (List.replicate 6 defaultColor) 3 2
      (by decide)).1 5 (by decide)⟩

/-- C5 counterexample: in an iteration where the age query answers
`3/2000000` seconds (1.5 microseconds), the loop computes an integer delay
of 1 microsecond and sleeps exactly 1 microsecond, while
`min(maximumWait, age × 1,000,000)` clamped to be non-negative is `3/2` —
the `int64_t` conversion truncates, so the claimed equality fails. -/
theorem sleep_truncates_cex :
    Step P0 ⟨.delayCalc, s0, t0⟩ (.qage (3 / 2000000))
        ⟨.sleeping (computeDelay (3 / 2000000)), s0, t0⟩ ∧
      computeDelay (3 / 2000000) = 1 ∧
      Step P0 ⟨.sleeping (computeDelay (3 / 2000000)), s0, t0⟩ (.slept 1)
        ⟨.outer, s0, t0⟩ ∧
      ((1 : ℚ) ≠ claimedSleep (3 / 2000000)) := by
  have hmin : min kMaximumWait ((3 / 2000000 : ℚ) * 1000000) = 3 / 2 := by
    rw [min_eq_right] <;> norm_num [kMaximumWait]
  have hfloor : ⌊(3 : ℚ) / 2⌋ = 1 := by
    rw [Int.floor_eq_iff]
    norm_num
  have hd : computeDelay (3 / 2000000) = 1 := by
    rw [computeDelay, hmin, ratTrunc, if_pos (by norm_num)]
    exact hfloor
  refine ⟨@Step.delayStep P0 (3 / 2000000) s0 t0, hd, ?_, ?_⟩
  · rw [hd]
    exact @Step.sleepPos P0 1 s0 t0 (by norm_num)
  · rw [claimedSleep, hmin]
    norm_num

/-- C5 amended: in every outer iteration in which no buffer is due, the
computed delay is `min(maximumWait, age × 1,000,000)` truncated toward zero
to a whole number of microseconds; the loop sleeps for exactly that delay
when it is positive and does not sleep otherwise, so the effective sleep is
the non-negative clamp of that truncation and never exceeds the maximum
wait ceiling. -/
theorem sleep_clamped_and_bounded (P : Params) (a : ℚ) (s : Surface)
    (t : Timing) (c' : Cfg) (h : Step P ⟨.delayCalc, s, t⟩ (.qage a) c') :
    c'.pc = .sleeping (computeDelay a) ∧
      max 0 (computeDelay a) = ratTrunc (claimedSleep a) ∧
      computeDelay a ≤ 10000 ∧
      (∀ d v (s' : Surface) (t' : Timing) (c'' : Cfg),
        Step P ⟨.sleeping d, s', t'⟩ (.slept v) c'' →
          0 < v ∧ v = d ∧ c''.pc = .outer) := by
  refine ⟨?_, ratTrunc_clamp _, computeDelay_le a, ?_⟩
  · cases h
    rfl
  · intro d v s' t' c'' hstep
    cases hstep
    exact ⟨by assumption, rfl, rfl⟩

/-- Witness for the amended C5 at a concrete age of 2 seconds. -/
theorem sleep_clamped_and_bounded_witness :
    (⟨.sleeping (computeDelay 2), s0, t0⟩ : Cfg).pc =
        .sleeping (computeDelay 2) ∧
      computeDelay 2 ≤ 10000 :=
  ⟨(sleep_clamped_and_bounded P0 2 s0 t0 _ (@Step.delayStep P0 2 s0 t0)).1,
    (sleep_clamped_and_bounded P0 2 s0 t0 _ (@Step.delayStep P0 2 s0 t0)).2.2.1⟩

/-- C6: a pop can only be entered from an age check that answered `≤ 0`
(the loop never calls `PopOldestBuffer` while the reported age is
positive), and whenever the inner check's age answer is `≤ 0` the loop
proceeds to pop at that check; a positive answer exits the inner loop to
the delay computation instead. -/
theorem pop_gated_by_age (P : Params) (c : Cfg) (e : Ev) (c' : Cfg)
    (h : Step P c e c') :
    (c'.pc = .doPop → ∃ a, c.pc = .inner ∧ e = .qage a ∧ a ≤ 0) ∧
      (∀ a, c.pc = .inner → e = .qage a → a ≤ 0 → c'.pc = .doPop) ∧
      (∀ a, c.pc = .inner → e = .qage a → 0 < a → c'.pc = .delayCalc) := by
  refine ⟨fun hpc => ?_, fun a hc he ha => ?_, fun a hc he ha => ?_⟩
  · cases h
    case innerDue a s t ha => exact ⟨a, rfl, rfl, ha⟩
    case renderStep f s t now =>
      rcases renderResult_pc P f s t now with hr | hr <;> rw [hr] at hpc <;>
        exact PC.noConfusion hpc
    all_goals exact PC.noConfusion hpc
  · cases h
    case innerDue a' s t ha' => rfl
    case innerNotDue a' s t ha' =>
      cases he
      exact absurd ha' (not_lt.mpr ha)
    all_goals exact PC.noConfusion hc
  · cases h
    case innerNotDue a' s t ha' => rfl
    case innerDue a' s t ha' =>
      cases he
      exact absurd ha (not_lt.mpr ha')
    all_goals exact PC.noConfusion hc

/-- Witness for C6: a due age answer of 0 leads to the pop. -/
theorem pop_gated_by_age_witness :
    (0 : ℚ) ≤ 0 ∧ (⟨.doPop, s0, t0⟩ : Cfg).pc = .doPop :=
  ⟨le_rfl,
    (pop_gated_by_age P0 ⟨.inner, s0, t0⟩ (.qage 0) ⟨.doPop, s0, t0⟩
      (@Step.innerDue P0 0 s0 t0 le_rfl)).2.1 0 rfl rfl le_rfl⟩

/-- C7: when `PopOldestBuffer` answers `nullopt` despite the preceding due
check, the loop neither fails nor terminates nor renders: it returns to the
inner age check with the surface and timing state untouched. -/
theorem empty_pop_benign (P : Params) (s : Surface) (t : Timing) (c' : Cfg)
    (h : Step P ⟨.doPop, s, t⟩ (.qpop none) c') :
    c' = ⟨.inner, s, t⟩ := by
  cases h
  rfl

/-- Witness for C7 at a concrete empty pop. -/
theorem empty_pop_benign_witness : (⟨.inner, s0, t0⟩ : Cfg) = ⟨.inner, s0, t0⟩ :=
  empty_pop_benign P0 s0 t0 _ (@Step.popNone P0 s0 t0)

/-- C8: the source fixes the discard-backlog policy off
(`burnExtraFrames = false`); with the policy disabled every successfully
popped buffer proceeds to the `DrawFrame` call, while with the policy
enabled a popped buffer is dropped (control returns to the inner check with
nothing rendered) whenever the new oldest buffer is also already due; the
render step applies `DrawFrame` to the popped buffer. -/
theorem burn_policy (P : Params) (f : LEDBuffer) (s : Surface) (t : Timing) :
    burnExtraFrames = false ∧
      (P.burn = false → ∀ e c', Step P ⟨.burnGate f, s, t⟩ e c' →
        c'.pc = .render f) ∧
      (P.burn = true → ∀ a c', a ≤ 0 →
        Step P ⟨.burnGate f, s, t⟩ (.qage a) c' → c' = ⟨.inner, s, t⟩) ∧
      (∀ now c', Step P ⟨.render f, s, t⟩ (.clock now) c' →
        c' = renderResult P f s t now) := by
  refine ⟨rfl, fun hP e c' h => ?_, fun hP a c' ha h => ?_, fun now c' h => ?_⟩
  · cases h
    case burnOff h' => rfl
    case burnDrop a hb h' => rw [hP] at hb; exact Bool.noConfusion hb
    case burnKeep a hb h' => rfl
  · cases h
    case burnDrop hb h' => rfl
    case burnKeep hb h' => exact absurd ha (not_le.mpr h')
  · cases h
    rfl

/-- Witness for C8: with the policy off, the gate passes a concrete popped
buffer straight to the render point. -/
theorem burn_policy_witness :
    burnExtraFrames = false ∧ (⟨.render f0, s0, t0⟩ : Cfg).pc = .render f0 :=
  ⟨(burn_policy P0 f0 s0 t0).1,
    (burn_policy P0 f0 s0 t0).2.1 rfl .tau ⟨.render f0, s0, t0⟩
      (@Step.burnOff P0 f0 s0 t0 rfl)⟩

/-- C10 counterexample: a render of a size-mismatched buffer makes the
exception leave the loop from the render point — the loop is left without
the interrupt flag having been observed true, refuting the claim that it is
left only on an interrupt observation at the top of an iteration. -/
theorem loop_exit_without_interrupt_cex :
    Step P0 ⟨.render fbad, s0, t0⟩ (.clock 1)
        ⟨.failed "Size mismatch between data and matrix.", s0, tick t0 1⟩ ∧
      (PC.render fbad ≠ PC.outer) ∧ (∀ b, Ev.clock 1 ≠ Ev.qintr b) := by
  refine ⟨?_, by decide, fun b => by simp⟩
  have hr : renderResult P0 fbad s0 t0 1 =
      ⟨.failed "Size mismatch between data and matrix.", s0, tick t0 1⟩ := rfl
  exact hr ▸ @Step.renderStep P0 fbad s0 t0 1

/-- C10 amended: `RunDrawLoop` returns normally only when the interrupt
flag is observed true at the top of an iteration, and whenever it returns
it returns true (a size-mismatch error instead propagates out of the loop
without a return value). -/
theorem loop_returns_true_on_interrupt (P : Params) (c : Cfg) (e : Ev)
    (c' : Cfg) (r : Bool) (h : Step P c e c') (hdone : c'.pc = .done r) :
    c.pc = .outer ∧ e = .qintr true ∧ r = true := by
  cases h
  case outerStop s t =>
    have hr : true = r := by
      injection hdone
    exact ⟨rfl, rfl, hr.symm⟩
  case renderStep f s t now =>
    rcases renderResult_pc P f s t now with hx | hx <;> rw [hx] at hdone <;>
      exact PC.noConfusion hdone
  all_goals exact PC.noConfusion hdone

/-- Witness for the amended C10 at a concrete interrupt observation. -/
theorem loop_returns_true_on_interrupt_witness :
    (⟨.outer, s0, t0⟩ : Cfg).pc = .outer ∧
      Ev.qintr true = Ev.qintr true ∧ true = true :=
  loop_returns_true_on_interrupt P0 ⟨.outer, s0, t0⟩ (.qintr true)
    ⟨.done true, s0, t0⟩ true (@Step.outerStop P0 s0 t0) rfl

end MatrixDraw
